import Mathlib

set_option autoImplicit false
set_option linter.unusedSectionVars false

/-!
A shallow embedding of the HnH/di dependency-injection library
(container.go and resolver.go) together with theorems settling the
specification claims about it.

Modelling conventions:
* Go reflection types are an abstract type `Ty` with decidable equality;
  the two reflection operations the library uses (`AssignableTo` and the
  `error`-interface test) are supplied by a `TyOps` record.
* Go `interface{}` values are `Val`: a runtime type plus either the nil
  interface, an immutable word, or a pointer into a heap.  The heap cell
  kinds cover the receivers the library manipulates (typed variable
  slots, structs with tagged fields, slices, string-keyed maps).
* Side effects are threaded through a state `St` holding the heap and a
  log of invoked function ids (one entry per `reflect.Value.Call`).
* Factory/constructor recursion through the registry is bounded by an
  explicit fuel parameter; exhaustion yields the distinguished error
  `fuelExhausted`, never confused with the library's own errors.
* Go panics (nil factory, indexing an empty non-nil name slice, calling
  a non-function nil) are modelled with the distinguished error
  `panicked`.
* Diagnostic caller strings (`runtime.Caller`) are modelled as `""`.
-/

namespace DI

/-- Association-list lookup; models reading a Go map. -/
def assocFind {κ ν : Type} [DecidableEq κ] : List (κ × ν) → κ → Option ν
  | [], _ => none
  | (k, v) :: rest, a => if k = a then some v else assocFind rest a

/-- Association-list update-or-append; models writing a Go map key. -/
def assocSet {κ ν : Type} [DecidableEq κ] : List (κ × ν) → κ → ν → List (κ × ν)
  | [], a, b => [(a, b)]
  | (k, v) :: rest, a, b =>
    if k = a then (a, b) :: rest else (k, v) :: assocSet rest a b

/-- The fragment of `reflect` the library uses on types:
`AssignableTo` (structural satisfaction) and the `error`-interface test
(`isError` in di.go). -/
structure TyOps (Ty : Type) where
  assignableTo : Ty → Ty → Bool
  isError : Ty → Bool

/-- Runtime data of a Go `interface{}` value: the nil interface, an
immutable word, or a pointer to a heap object. -/
inductive VData where
  | nilV : VData
  | word : Nat → VData
  | addr : Nat → VData
  deriving DecidableEq, Repr

/-- A Go `interface{}` value: runtime type, data, and the value's
post-construction-hook capability.  `hook = none` means the value does
not implement the `Constructor` interface; `hook = some e` means it
does and its `Construct` method returns `e` (`none` = nil error,
`some c` = error with code `c`).  The hook's own invocation is modelled
as this pure result, since no claim exercises hook parameters. -/
structure Val (Ty : Type) where
  ty : Ty
  data : VData
  hook : Option (Option Nat) := none
  deriving DecidableEq

instance {Ty : Type} [Inhabited Ty] : Inhabited (Val Ty) :=
  ⟨{ ty := default, data := .nilV }⟩

/-- A struct field as seen through reflection: name, static type, the
raw `di:"..."` tag (none when the tag is absent) and the current value. -/
structure Field (Ty : Type) where
  fname : String
  ftype : Ty
  tag : Option String := none
  value : Val Ty
  deriving DecidableEq

/-- Heap objects: opaque payload words (e.g. a Shape's area), typed
variable slots (Resolve/Call-return receivers), structs, slices and
string-keyed maps (Fill receivers). -/
inductive HObj (Ty : Type) where
  | word : Nat → HObj Ty
  | vcell : Val Ty → HObj Ty
  | strct : List (Field Ty) → HObj Ty
  | slice : Ty → List (Val Ty) → HObj Ty
  | mapStr : Ty → List (String × Val Ty) → HObj Ty
  deriving DecidableEq

/-- The mutable world: heap plus a log of invoked function ids. -/
structure St (Ty : Type) where
  heap : List (HObj Ty)
  log : List Nat
  deriving DecidableEq

def heapAt {Ty : Type} (st : St Ty) (a : Nat) : Option (HObj Ty) :=
  st.heap[a]?

def writeHeap {Ty : Type} (st : St Ty) (a : Nat) (o : HObj Ty) : St Ty :=
  { st with heap := st.heap.set a o }

/-- A Go function value: an identity (so invocations can be logged), the
reflected input and output type lists, and the dynamic behaviour.  The
behaviour receives the resolved arguments and the current state and
returns the output values (one per declared output) and the new state. -/
structure GoFunc (Ty : Type) where
  id : Nat
  ins : List Ty
  outs : List Ty
  run : List (Val Ty) → St Ty → List (Val Ty) × St Ty

/-- A Go `interface{}` argument that may be a function (constructors,
Call targets): untyped nil, a plain value, or a function. -/
inductive GoAny (Ty : Type) where
  | nilA : GoAny Ty
  | val : Val Ty → GoAny Ty
  | fn : GoFunc Ty → GoAny Ty

/-- container.go `Binding`: either a stored singleton instance or a
factory method, a diagnostic caller string, and the fill flag. -/
structure Binding (Ty : Type) where
  factory : Option (GoFunc Ty) := none
  inst : Option (Val Ty) := none
  caller : String := ""
  fill : Bool := false

/-- container.go `container`: the type-and-name indexed binding store. -/
structure Registry (Ty : Type) where
  bindings : List (Ty × List (String × Binding Ty))

/-- container.go `DefaultBindName`. -/
def DefaultBindName : String := "default"

/-- The errors the library returns, plus the two model artifacts
(`fuelExhausted` for the explicit recursion bound, `panicked` for Go
panics). -/
inductive GoErr (Ty : Type) where
  | notFound : Ty → GoErr Ty
  | notAFunction : GoErr Ty
  | noUsefulValues : GoErr Ty
  | nameCount : GoErr Ty
  | factoryArity : GoErr Ty
  | invalidFunction : GoErr Ty
  | invalidReceiver : GoErr Ty
  | notAPointer : GoErr Ty
  | invalidTag : String → GoErr Ty
  | assignCount : Nat → Nat → GoErr Ty
  | assignType : Ty → Ty → GoErr Ty
  | user : Val Ty → GoErr Ty
  | hookFail : Nat → GoErr Ty
  | panicked : GoErr Ty
  | fuelExhausted : GoErr Ty

/-- container.go `ListBindings`. -/
def Registry.listB {Ty : Type} [DecidableEq Ty] (r : Registry Ty) (t : Ty) :
    Except (GoErr Ty) (List (String × Binding Ty)) :=
  match assocFind r.bindings t with
  | none => .error (.notFound t)
  | some l => .ok l

/-- Stores `bindings[t][name] = b`, creating the inner map when absent
(container.go bind / Implementation store step). -/
def Registry.setB {Ty : Type} [DecidableEq Ty] (r : Registry Ty) (t : Ty) (name : String)
    (b : Binding Ty) : Registry Ty :=
  ⟨assocSet r.bindings t (assocSet ((assocFind r.bindings t).getD []) name b)⟩

/-- container.go `Reset`. -/
def Registry.Reset {Ty : Type} (_ : Registry Ty) : Registry Ty := ⟨[]⟩

variable {Ty : Type} [DecidableEq Ty] [Inhabited Ty]

/-- The container-chain scan of resolver.go `getBinding` (lines 46-57):
a container whose `ListBindings` fails, or does not hold the name, is
skipped; the first hit wins. -/
def getBindingChain : List (Registry Ty) → Ty → String → Except (GoErr Ty) (Binding Ty)
  | [], t, _ => .error (.notFound t)
  | r :: rest, t, name =>
    match r.listB t with
    | .error _ => getBindingChain rest t name
    | .ok list =>
      match assocFind list name with
      | some bnd => .ok bnd
      | none => getBindingChain rest t name

/-- resolver.go `getBinding`: the `With` override instances are scanned
first, used only for default-named lookups and matched by
`AssignableTo`; then the container chain. -/
def getBinding (ops : TyOps Ty) (impls : List (Val Ty)) (ctrs : List (Registry Ty))
    (abstraction : Ty) (name : String) : Except (GoErr Ty) (Binding Ty) :=
  match impls.find? (fun inst =>
      ops.assignableTo inst.ty abstraction && name == DefaultBindName) with
  | some inst => .ok { inst := some inst }
  | none => getBindingChain ctrs abstraction name

/-- resolver.go `arguments`, parameterised by the resolution procedure:
every parameter is resolved under the default name. -/
def argumentsW (resolve : Ty → String → St Ty → Except (GoErr Ty) (Val Ty) × St Ty) :
    List Ty → St Ty → Except (GoErr Ty) (List (Val Ty)) × St Ty
  | [], st => (.ok [], st)
  | t :: rest, st =>
    match resolve t DefaultBindName st with
    | (.error e, st') => (.error e, st')
    | (.ok v, st') =>
      match argumentsW resolve rest st' with
      | (.error e, st'') => (.error e, st'')
      | (.ok vs, st'') => (.ok (v :: vs), st'')

/-- resolver.go `invoke`: resolve the arguments, call the function
(logging its id), and surface a non-nil trailing error value when there
is more than one output. -/
def invokeW (ops : TyOps Ty) (resolve : Ty → String → St Ty → Except (GoErr Ty) (Val Ty) × St Ty)
    (f : GoFunc Ty) (st : St Ty) : Except (GoErr Ty) (List (Val Ty)) × St Ty :=
  match argumentsW resolve f.ins st with
  | (.error e, st') => (.error e, st')
  | (.ok args, st') =>
    let (out, st'') := f.run args { st' with log := st'.log ++ [f.id] }
    match out.getLast? with
    | none => (.ok out, st'')
    | some last =>
      if 1 < out.length ∧ ops.isError last.ty = true ∧ last.data ≠ .nilV then
        (.error (.user last), st'')
      else (.ok out, st'')

/-- resolver.go `resolveBindingInstance`: a stored instance is returned
unchanged; otherwise the factory is invoked and the produced value's
post-construction hook runs.  A nil factory would make Go panic. -/
def resolveInstanceW (ops : TyOps Ty)
    (resolve : Ty → String → St Ty → Except (GoErr Ty) (Val Ty) × St Ty)
    (bnd : Binding Ty) (st : St Ty) : Except (GoErr Ty) (Val Ty) × St Ty :=
  match bnd.inst with
  | some v => (.ok v, st)
  | none =>
    match bnd.factory with
    | none => (.error .panicked, st)
    | some f =>
      match invokeW ops resolve f st with
      | (.error e, st') => (.error e, st')
      | (.ok out, st') =>
        let v := out.headD default
        match v.hook with
        | some (some code) => (.error (.hookFail code), st')
        | _ => (.ok v, st')

/-- resolver.go `resolveBinding`, with an explicit recursion bound on
the factory-materialisation cycle. -/
def resolveBinding (ops : TyOps Ty) (impls : List (Val Ty)) (ctrs : List (Registry Ty)) :
    Nat → Ty → String → St Ty → Except (GoErr Ty) (Val Ty) × St Ty
  | 0, _, _, st => (.error .fuelExhausted, st)
  | fuel + 1, t, name, st =>
    match getBinding ops impls ctrs t name with
    | .error e => (.error e, st)
    | .ok bnd =>
      resolveInstanceW ops (fun t' n' s' => resolveBinding ops impls ctrs fuel t' n' s') bnd st

/-- resolver.go `invoke` at a given fuel. -/
def invoke (ops : TyOps Ty) (impls : List (Val Ty)) (ctrs : List (Registry Ty)) (fuel : Nat)
    (f : GoFunc Ty) (st : St Ty) : Except (GoErr Ty) (List (Val Ty)) × St Ty :=
  invokeW ops (fun t n s => resolveBinding ops impls ctrs fuel t n s) f st

/-- resolver.go `fillStruct` (lines 231-261): fields without a `di` tag
are skipped; tag `type` resolves by field type under the default name,
tag `name` under the field's own identifier; any other tag is an
invalid-struct-tag error.  Fields are assigned one at a time, so on a
later failure the earlier assignments persist (the partially updated
field list is returned alongside the error). -/
def fillFieldsSrc (resolve : Ty → String → St Ty → Except (GoErr Ty) (Val Ty) × St Ty) :
    List (Field Ty) → St Ty → Except (GoErr Ty) Unit × List (Field Ty) × St Ty
  | [], st => (.ok (), [], st)
  | fld :: rest, st =>
    match fld.tag with
    | none =>
      let (r, rest', st') := fillFieldsSrc resolve rest st
      (r, fld :: rest', st')
    | some tag =>
      if tag = "type" ∨ tag = "name" then
        let name := if tag = "type" then DefaultBindName else fld.fname
        match resolve fld.ftype name st with
        | (.error e, st') => (.error e, fld :: rest, st')
        | (.ok v, st') =>
          let (r, rest', st'') := fillFieldsSrc resolve rest st'
          (r, { fld with value := v } :: rest', st'')
      else (.error (.invalidTag fld.fname), fld :: rest, st)

/-- The binding collection shared by resolver.go `fillSlice` and
`fillMap`: every named binding of the element type, across every
container of the chain (containers without the type are skipped), each
materialised through `resolveBindingInstance`. -/
def collectB (resolveInst : Binding Ty → St Ty → Except (GoErr Ty) (Val Ty) × St Ty) :
    List (Registry Ty) → Ty → St Ty → Except (GoErr Ty) (List (String × Val Ty)) × St Ty
  | [], _, st => (.ok [], st)
  | r :: rest, t, st =>
    match r.listB t with
    | .error _ => collectB resolveInst rest t st
    | .ok list =>
      match collectList resolveInst list st with
      | (.error e, st') => (.error e, st')
      | (.ok vs, st') =>
        match collectB resolveInst rest t st' with
        | (.error e, st'') => (.error e, st'')
        | (.ok vs', st'') => (.ok (vs ++ vs'), st'')
where
  collectList (resolveInst : Binding Ty → St Ty → Except (GoErr Ty) (Val Ty) × St Ty) :
      List (String × Binding Ty) → St Ty → Except (GoErr Ty) (List (String × Val Ty)) × St Ty
    | [], st => (.ok [], st)
    | (name, bnd) :: rest, st =>
      match resolveInst bnd st with
      | (.error e, st') => (.error e, st')
      | (.ok v, st') =>
        match collectList resolveInst rest st' with
        | (.error e, st'') => (.error e, st'')
        | (.ok vs, st'') => (.ok ((name, v) :: vs), st'')

/-- resolver.go `fillSlice`: collect every binding of the element type;
zero collected bindings is a not-found error, otherwise the receiver
slice is replaced.  The model's deterministic collection order stands
in for Go's unspecified map iteration order. -/
def fillSliceM (resolveInst : Binding Ty → St Ty → Except (GoErr Ty) (Val Ty) × St Ty)
    (ctrs : List (Registry Ty)) (elemTy : Ty) (a : Nat) (st : St Ty) :
    Except (GoErr Ty) Unit × St Ty :=
  match collectB resolveInst ctrs elemTy st with
  | (.error e, st') => (.error e, st')
  | (.ok vs, st') =>
    if vs.length = 0 then (.error (.notFound elemTy), st')
    else (.ok (), writeHeap st' a (.slice elemTy (vs.map (·.2))))

/-- resolver.go `fillMap`: as `fillSlice` but keyed by binding name
(later duplicates overwrite earlier ones, as map writes do). -/
def fillMapM (resolveInst : Binding Ty → St Ty → Except (GoErr Ty) (Val Ty) × St Ty)
    (ctrs : List (Registry Ty)) (elemTy : Ty) (a : Nat) (st : St Ty) :
    Except (GoErr Ty) Unit × St Ty :=
  match collectB resolveInst ctrs elemTy st with
  | (.error e, st') => (.error e, st')
  | (.ok vs, st') =>
    if vs.length = 0 then (.error (.notFound elemTy), st')
    else
      (.ok (), writeHeap st' a
        (.mapStr elemTy (vs.foldl (fun acc nv => assocSet acc nv.1 nv.2) [])))

/-- resolver.go `Fill` (lines 203-229): nil receivers are invalid,
non-pointers are rejected, and the pointed-to shape dispatches to the
struct, slice or string-keyed-map fill; anything else is an invalid
receiver.  Variable slots holding plain cells (e.g. `*int`) are invalid
receivers as in the source. -/
def FillSrc (ops : TyOps Ty) (impls : List (Val Ty)) (ctrs : List (Registry Ty)) (fuel : Nat)
    (recv : Val Ty) (st : St Ty) : Except (GoErr Ty) Unit × St Ty :=
  let resolve := fun t n s => resolveBinding ops impls ctrs fuel t n s
  let resolveInst := fun bnd s => resolveInstanceW ops resolve bnd s
  match recv.data with
  | .nilV => (.error .invalidReceiver, st)
  | .word _ => (.error .notAPointer, st)
  | .addr a =>
    match heapAt st a with
    | some (.strct fs) =>
      let (r, fs', st') := fillFieldsSrc resolve fs st
      (r, writeHeap st' a (.strct fs'))
    | some (.slice elemTy _) => fillSliceM resolveInst ctrs elemTy a st
    | some (.mapStr elemTy _) => fillMapM resolveInst ctrs elemTy a st
    | _ => (.error .invalidReceiver, st)

/-- Modelled from the spec: the recognised `di` struct-tag values of the
omitempty-aware struct fill, which the repository's tests and README
exercise but whose source file is not among the given sources.  Spec
§4.2 (*fill*, *Struct* bullet) and §6: annotation values `type` (lookup
by field type, default name) and `name` (lookup by field type, name =
field identifier); modifier `omitempty` suppresses a field-level
NotFound; `recursive` applies `fill` to the field's current value
instead of a lookup. -/
inductive TagAction where
  | lookup : Bool → Bool → TagAction
  | recurse : TagAction
  deriving DecidableEq

/-- Modelled from the spec: parsing of the recognised tag strings (an
unrecognised annotation value is InvalidFieldTag).  `lookup byName omit`
resolves by the field's type, under the field name when `byName`. -/
def parseTag (tag : String) : Option TagAction :=
  if tag = "type" then some (.lookup false false)
  else if tag = "type,omitempty" then some (.lookup false true)
  else if tag = "name" then some (.lookup true false)
  else if tag = "name,omitempty" then some (.lookup true true)
  else if tag = "recursive" then some .recurse
  else none

/-- Modelled from the spec: the omitempty-aware struct fill (spec §4.2,
*Struct* bullet).  Untagged fields are untouched; a field-level
NotFound under the `omitempty` modifier leaves the field at its current
(zero) value instead of failing the Fill; other errors abort. -/
def fillFieldsSpec (resolve : Ty → String → St Ty → Except (GoErr Ty) (Val Ty) × St Ty)
    (fillRec : Val Ty → St Ty → Except (GoErr Ty) Unit × St Ty) :
    List (Field Ty) → St Ty → Except (GoErr Ty) Unit × List (Field Ty) × St Ty
  | [], st => (.ok (), [], st)
  | fld :: rest, st =>
    match fld.tag with
    | none =>
      let (r, rest', st') := fillFieldsSpec resolve fillRec rest st
      (r, fld :: rest', st')
    | some tag =>
      match parseTag tag with
      | none => (.error (.invalidTag fld.fname), fld :: rest, st)
      | some .recurse =>
        match fillRec fld.value st with
        | (.error e, st') => (.error e, fld :: rest, st')
        | (.ok (), st') =>
          let (r, rest', st'') := fillFieldsSpec resolve fillRec rest st'
          (r, fld :: rest', st'')
      | some (.lookup byName omitFlag) =>
        let name := if byName then fld.fname else DefaultBindName
        match resolve fld.ftype name st with
        | (.error (.notFound t), st') =>
          if omitFlag then
            let (r, rest', st'') := fillFieldsSpec resolve fillRec rest st'
            (r, fld :: rest', st'')
          else (.error (.notFound t), fld :: rest, st')
        | (.error e, st') => (.error e, fld :: rest, st')
        | (.ok v, st') =>
          let (r, rest', st'') := fillFieldsSpec resolve fillRec rest st'
          (r, { fld with value := v } :: rest', st'')

/-- Modelled from the spec: the omitempty-aware `Fill` entry point, with
the same receiver dispatch as the source `Fill` and the spec's struct
branch; `recursive` fields re-enter this fill on the field's value. -/
def FillSpec (ops : TyOps Ty) (impls : List (Val Ty)) (ctrs : List (Registry Ty)) :
    Nat → Val Ty → St Ty → Except (GoErr Ty) Unit × St Ty
  | 0, _, st => (.error .fuelExhausted, st)
  | fuel + 1, recv, st =>
    let resolve := fun t n s => resolveBinding ops impls ctrs fuel t n s
    let resolveInst := fun bnd s => resolveInstanceW ops resolve bnd s
    match recv.data with
    | .nilV => (.error .invalidReceiver, st)
    | .word _ => (.error .notAPointer, st)
    | .addr a =>
      match heapAt st a with
      | some (.strct fs) =>
        let (r, fs', st') :=
          fillFieldsSpec resolve (fun v s => FillSpec ops impls ctrs fuel v s) fs st
        (r, writeHeap st' a (.strct fs'))
      | some (.slice elemTy _) => fillSliceM resolveInst ctrs elemTy a st
      | some (.mapStr elemTy _) => fillMapM resolveInst ctrs elemTy a st
      | _ => (.error .invalidReceiver, st)

/-- opts.go `bindOptions` (with the fill flag of container.go):
`names = none` models the nil slice left by an absent `WithName`. -/
structure BindOptions where
  factory : Bool := false
  names : Option (List String) := none
  fill : Bool := false

/-- The "instance stored for reusing": `Interface()` of a constructor
output that is the nil interface gives a nil `any`, leaving the
binding's instance field nil. -/
def toInstance (v : Val Ty) : Option (Val Ty) :=
  if v.data = .nilV then none else some v

/-- The fill-then-hook pass container.go bind (lines 93-105) runs over
the eagerly constructed instances: `Fill` when the fill option is set,
then the value's post-construction hook (modelled as the value's pure
hook result). -/
def postCreate (ops : TyOps Ty) (impls : List (Val Ty)) (ctrs : List (Registry Ty)) (fuel : Nat) :
    List (Val Ty) → Bool → St Ty → Except (GoErr Ty) Unit × St Ty
  | [], _, st => (.ok (), st)
  | v :: rest, fillFlag, st =>
    match (if fillFlag then FillSrc ops impls ctrs fuel v st else (.ok (), st) :
        Except (GoErr Ty) Unit × St Ty) with
    | (.error e, st') => (.error e, st')
    | (.ok (), st') =>
      match v.hook with
      | some (some code) => (.error (.hookFail code), st')
      | _ => postCreate ops impls ctrs fuel rest fillFlag st'

/-- The storing loop of container.go bind (lines 114-148) for a factory
binding: the constructor is stored under the first name only, for each
of the first `numReal` output types. -/
def storeFactory (outs : List Ty) (numReal : Nat) (f : GoFunc Ty) (name : String)
    (fillFlag : Bool) (cnt : Registry Ty) : Registry Ty :=
  (List.range numReal).foldl
    (fun c i => c.setB (outs.getD i default) name { factory := some f, fill := fillFlag })
    cnt

/-- The storing loop of container.go bind for singleton instances: with
more than one useful value the i-th value goes under the i-th name (or
the single supplied name); a single value is stored under every
supplied name (alias semantics). -/
def storeSingleton (outs : List Ty) (numReal : Nat) (names : List String)
    (out : List (Val Ty)) (fillFlag : Bool) (cnt : Registry Ty) : Registry Ty :=
  (List.range numReal).foldl
    (fun c i =>
      let t := outs.getD i default
      if 1 < numReal then
        let name := if 1 < names.length then names.getD i "" else names.headD ""
        c.setB t name { inst := toInstance (out.getD i default), fill := fillFlag }
      else
        names.foldl
          (fun c' n => c'.setB t n { inst := toInstance (out.getD i default), fill := fillFlag })
          c)
    cnt

/-- container.go `bind` (lines 66-151).  The constructor must be a
function returning at least one useful value (a sole error-typed return
is not useful); a trailing error-typed return is excluded from the
useful count.  Singletons check the name count, are constructed eagerly
through the container's own resolver, filled and hooked; factories only
have their arity checked.  Then every useful output type is bound.  Go
indexes `opts.names[0]` unconditionally, so an empty non-nil name slice
panics. -/
def bind (ops : TyOps Ty) (ctor : GoAny Ty) (opts : BindOptions) (cnt : Registry Ty)
    (fuel : Nat) (st : St Ty) : Except (GoErr Ty) Unit × Registry Ty × St Ty :=
  match ctor with
  | .fn f =>
    if f.outs.length = 0 ∨ (f.outs.length = 1 ∧ ops.isError (f.outs.headD default) = true) then
      (.error .noUsefulValues, cnt, st)
    else
      let numReal :=
        f.outs.length - (if ops.isError (f.outs.getLastD default) = true then 1 else 0)
      let names := opts.names.getD [DefaultBindName]
      if opts.factory = true then
        if f.outs.length = 2 ∧ ops.isError (f.outs.getD 1 default) = false ∨ 2 < f.outs.length then
          (.error .factoryArity, cnt, st)
        else if names = [] then (.error .panicked, cnt, st)
        else (.ok (), storeFactory f.outs numReal f (names.headD "") opts.fill cnt, st)
      else
        if 1 < numReal ∧ 1 < names.length ∧ numReal ≠ names.length then
          (.error .nameCount, cnt, st)
        else
          match invoke ops [] [cnt] fuel f st with
          | (.error e, st') => (.error e, cnt, st')
          | (.ok out, st') =>
            match postCreate ops [] [cnt] fuel (out.take numReal) opts.fill st' with
            | (.error e, st'') => (.error e, cnt, st'')
            | (.ok (), st'') =>
              if names = [] then (.error .panicked, cnt, st'')
              else (.ok (), storeSingleton f.outs numReal names out opts.fill cnt, st'')
  | _ => (.error .notAFunction, cnt, st)

/-- container.go `Singleton`. -/
def Singleton (ops : TyOps Ty) (ctor : GoAny Ty) (opts : BindOptions) (cnt : Registry Ty)
    (fuel : Nat) (st : St Ty) : Except (GoErr Ty) Unit × Registry Ty × St Ty :=
  bind ops ctor { opts with factory := false } cnt fuel st

/-- container.go `Factory`. -/
def Factory (ops : TyOps Ty) (ctor : GoAny Ty) (opts : BindOptions) (cnt : Registry Ty)
    (fuel : Nat) (st : St Ty) : Except (GoErr Ty) Unit × Registry Ty × St Ty :=
  bind ops ctor { opts with factory := true } cnt fuel st

/-- container.go `Implementation` (lines 167-185): the ready instance is
stored keyed by its own runtime type, under the first supplied name
only (the default name when none are supplied); the error result is
always nil. -/
def Implementation (impl : Val Ty) (opts : BindOptions) (cnt : Registry Ty) : Registry Ty :=
  let names := match opts.names.getD [] with
    | [] => [DefaultBindName]
    | l => l
  cnt.setB impl.ty (names.headD "") { inst := toInstance impl }

/-- resolver.go `resolver`: a chain of containers plus the `With`
override instances. -/
structure Resolver (Ty : Type) where
  containers : List (Registry Ty)
  implementations : List (Val Ty) := []

/-- resolver.go `With` (lines 128-137): a fresh resolver with a copy of
the container chain whose override list is exactly the supplied
instances. -/
def Resolver.With (r : Resolver Ty) (impls : List (Val Ty)) : Resolver Ty :=
  { containers := r.containers, implementations := impls }

/-- opts.go `resolveOptions`. -/
structure ResolveOptions where
  name : String := DefaultBindName

/-- resolver.go `Resolve` (lines 181-199): the receiver must be a
pointer (modelled as an address of a typed variable slot); the binding
for the pointed-to type is resolved under the requested name and
assigned through the pointer. -/
def Resolve (ops : TyOps Ty) (impls : List (Val Ty)) (ctrs : List (Registry Ty)) (fuel : Nat)
    (receiver : Val Ty) (opts : ResolveOptions) (st : St Ty) :
    Except (GoErr Ty) Unit × St Ty :=
  match receiver.data with
  | .addr a =>
    match heapAt st a with
    | some (.vcell cur) =>
      match resolveBinding ops impls ctrs fuel cur.ty opts.name st with
      | (.error e, st') => (.error e, st')
      | (.ok v, st') => (.ok (), writeHeap st' a (.vcell v))
    | _ => (.error .invalidReceiver, st)
  | _ => (.error .invalidReceiver, st)

/-- A return target of `WithReturn`: a settable pointer is an element
type plus the address of the pointed-to variable; nil or non-pointer
targets are `bad`. -/
inductive RetTarget (Ty : Type) where
  | bad : RetTarget Ty
  | tgt : Ty → Bool → Nat → RetTarget Ty

/-- opts.go `callOptions`: `returns = none` models the nil slice left by
an absent `WithReturn`. -/
structure CallOptions (Ty : Type) where
  returns : Option (List (RetTarget Ty)) := none

/-- The assignment loop of resolver.go `Call` (lines 168-175): the i-th
output is copied into the i-th target, which must be a settable pointer
whose element type is exactly (`reflect.Type` identity, not
assignability) the i-th declared output type.  Earlier assignments
persist when a later target fails.  For a nil target Go would panic
formatting the error; the model returns the mismatch error. -/
def assignReturns (outs : List Ty) (out : List (Val Ty)) :
    List (RetTarget Ty) → Nat → St Ty → Except (GoErr Ty) Unit × St Ty
  | [], _, st => (.ok (), st)
  | .bad :: _, i, st => (.error (.assignType (outs.getD i default) default), st)
  | .tgt elemTy canSet a :: rest, i, st =>
    if canSet = true ∧ outs.getD i default = elemTy then
      assignReturns outs out rest (i + 1) (writeHeap st a (.vcell (out.getD i default)))
    else (.error (.assignType (outs.getD i default) elemTy), st)

/-- resolver.go `Call` (lines 140-178): the function must be a function;
with a non-nil return-target list whose length differs from the
non-error output count the count-mismatch error is returned before any
argument is resolved; then arguments are resolved, the function is
invoked, a non-nil trailing error-typed result is returned as the
error, and otherwise the outputs are copied into the targets. -/
def Call (ops : TyOps Ty) (impls : List (Val Ty)) (ctrs : List (Registry Ty)) (fuel : Nat)
    (function : GoAny Ty) (opts : CallOptions Ty) (st : St Ty) :
    Except (GoErr Ty) Unit × St Ty :=
  match function with
  | .fn f =>
    let returnsAnError : Nat :=
      if f.outs ≠ [] ∧ ops.isError (f.outs.getLastD default) = true then 1 else 0
    if opts.returns.isSome = true ∧
        f.outs.length - returnsAnError ≠ (opts.returns.getD []).length then
      (.error (.assignCount (f.outs.length - returnsAnError) (opts.returns.getD []).length), st)
    else
      match argumentsW (fun t n s => resolveBinding ops impls ctrs fuel t n s) f.ins st with
      | (.error e, st') => (.error e, st')
      | (.ok args, st') =>
        let (out, st'') := f.run args { st' with log := st'.log ++ [f.id] }
        if returnsAnError = 1 ∧ (out.getLastD default).data ≠ .nilV then
          (.error (.user (out.getLastD default)), st'')
        else assignReturns f.outs out (opts.returns.getD []) 0 st''
  | _ => (.error .invalidFunction, st)

/-- The targets of a `WithReturn` list are all settable pointers whose
element types are exactly the corresponding declared output types,
counting from position `i`. -/
def exactTargets (outs : List Ty) : List (RetTarget Ty) → Nat → Bool
  | [], _ => true
  | .bad :: _, _ => false
  | .tgt u c _ :: rest, i =>
    c && decide (outs.getD i default = u) && exactTargets outs rest (i + 1)

/-- The ordered heap writes the assignment loop of `Call` performs: one
per successfully matched target, stopping at the first failure. -/
def retWrites (outs : List Ty) (out : List (Val Ty)) :
    List (RetTarget Ty) → Nat → List (Nat × HObj Ty)
  | [], _ => []
  | .bad :: _, _ => []
  | .tgt u c a :: rest, i =>
    if c = true ∧ outs.getD i default = u then
      (a, .vcell (out.getD i default)) :: retWrites outs out rest (i + 1)
    else []

/-- Applies a list of heap writes in order. -/
def applyWrites (st : St Ty) : List (Nat × HObj Ty) → St Ty
  | [] => st
  | (a, o) :: rest => applyWrites (writeHeap st a o) rest

/-! ### A small concrete type universe for witnesses

Mirrors the test fixtures of the repository: `Shape` is an interface
satisfied by the concrete `Rectangle` and `Circle`, `Database` by
`MySQL`; `errT` is the `error` interface. -/

inductive TU where
  | shape | rectangle | circle | database | mysql | strT | errT
  deriving DecidableEq, Inhabited, Repr

/-- `AssignableTo` and the error-interface test on the witness
universe. -/
def tuOps : TyOps TU where
  assignableTo := fun a b =>
    a == b || (a == .rectangle && b == .shape) || (a == .circle && b == .shape) ||
      (a == .mysql && b == .database)
  isError := fun t => t == .errT

/-- Witness constructor for C1: a dependency-free constructor returning
one immutable Shape value. -/
def c1ctor : GoFunc TU :=
  { id := 1, ins := [], outs := [.shape],
    run := fun _ s => ([⟨TU.shape, .word 100500, none⟩], s) }

/-- Witness constructor for C2: allocates a fresh Shape object with
area 100500 on every call and returns a pointer to it. -/
def c2ctor : GoFunc TU :=
  { id := 2, ins := [], outs := [.shape],
    run := fun _ s =>
      ([⟨TU.shape, .addr s.heap.length, none⟩], { s with heap := s.heap ++ [.word 100500] }) }

/-- Witness function for C4: returns one concrete Rectangle value. -/
def c4fn : GoFunc TU :=
  { id := 4, ins := [], outs := [.rectangle],
    run := fun _ s => ([⟨TU.rectangle, .word 13, none⟩], s) }

/-- Witness constructor for C5: returns (Shape, Database, error) with a
nil trailing error. -/
def c5ctor : GoFunc TU :=
  { id := 5, ins := [], outs := [.shape, .database, .errT],
    run := fun _ s =>
      ([⟨TU.shape, .word 777, none⟩, ⟨TU.database, .word 1, none⟩, ⟨TU.errT, .nilV, none⟩], s) }

/-- Witness function for C8: consumes one Shape parameter, returns
nothing. -/
def c8fn : GoFunc TU :=
  { id := 8, ins := [.shape], outs := [], run := fun _ s => ([], s) }

/-- Witness function for C9: no inputs, no outputs. -/
def c9fn : GoFunc TU :=
  { id := 9, ins := [], outs := [], run := fun _ s => ([], s) }

/-- Two-level registry lookup, the inner map defaulting to empty. -/
def regFind (r : Registry Ty) (t : Ty) (name : String) : Option (Binding Ty) :=
  assocFind ((assocFind r.bindings t).getD []) name

/-! ## Theorems -/

section AssocLemmas

variable {κ ν : Type} [DecidableEq κ]

theorem assocFind_set_self (l : List (κ × ν)) (k : κ) (v : ν) :
    assocFind (assocSet l k v) k = some v := by
  induction l with
  | nil => simp [assocSet, assocFind]
  | cons p rest ih =>
    obtain ⟨pk, pv⟩ := p
    by_cases h : pk = k
    · simp [assocSet, h, assocFind]
    · simp [assocSet, h, assocFind, ih]

theorem assocFind_set_ne (l : List (κ × ν)) (k k' : κ) (v : ν) (h : k' ≠ k) :
    assocFind (assocSet l k v) k' = assocFind l k' := by
  induction l with
  | nil =>
    simp only [assocSet, assocFind]
    rw [if_neg (Ne.symm h)]
  | cons p rest ih =>
    obtain ⟨pk, pv⟩ := p
    by_cases hpk : pk = k
    · subst hpk
      simp only [assocSet, if_pos rfl, assocFind]
      rw [if_neg (Ne.symm h), if_neg (Ne.symm h)]
    · simp only [assocSet, if_neg hpk, assocFind, ih]

end AssocLemmas

section RegistryLemmas

variable {Ty : Type} [DecidableEq Ty] [Inhabited Ty]

theorem setB_find_type (r : Registry Ty) (t : Ty) (n : String) (b : Binding Ty) :
    assocFind (r.setB t n b).bindings t =
      some (assocSet ((assocFind r.bindings t).getD []) n b) := by
  simp [Registry.setB, assocFind_set_self]

theorem regFind_setB (r : Registry Ty) (t : Ty) (n n' : String) (b : Binding Ty) :
    regFind (r.setB t n b) t n' = if n' = n then some b else regFind r t n' := by
  by_cases h : n' = n
  · simp [regFind, setB_find_type, h, assocFind_set_self]
  · simp [regFind, setB_find_type, h, assocFind_set_ne _ _ _ _ h]

theorem chain_single_of_regFind (r : Registry Ty) (t : Ty) (name : String) (b : Binding Ty)
    (h : regFind r t name = some b) : getBindingChain [r] t name = .ok b := by
  unfold regFind at h
  cases hT : assocFind r.bindings t with
  | none => rw [hT] at h; simp [assocFind] at h
  | some L =>
    rw [hT] at h
    simp at h
    simp [getBindingChain, Registry.listB, hT, h]

theorem chain_single_none (r : Registry Ty) (t : Ty) (name : String)
    (h : regFind r t name = none) :
    getBindingChain [r] t name = .error (.notFound t) := by
  unfold regFind at h
  cases hT : assocFind r.bindings t with
  | none => simp [getBindingChain, Registry.listB, hT]
  | some L =>
    rw [hT] at h
    simp at h
    simp [getBindingChain, Registry.listB, hT, h]

theorem chain_notFound (ctrs : List (Registry Ty)) (t : Ty) (name : String)
    (h : ∀ r ∈ ctrs, assocFind r.bindings t = none) :
    getBindingChain ctrs t name = .error (.notFound t) := by
  induction ctrs with
  | nil => rfl
  | cons r rest ih =>
    have hr := h r (by simp)
    simp only [getBindingChain, Registry.listB, hr]
    exact ih fun r' hr' => h r' (by simp [hr'])

theorem getBinding_no_overrides (ops : TyOps Ty) (ctrs : List (Registry Ty)) (t : Ty)
    (name : String) : getBinding ops [] ctrs t name = getBindingChain ctrs t name := rfl

theorem resolveBinding_of_inst (ops : TyOps Ty) (ctrs : List (Registry Ty)) (fuel : Nat)
    (t : Ty) (name : String) (s : St Ty) (v : Val Ty)
    (h : getBindingChain ctrs t name = .ok { inst := some v }) :
    resolveBinding ops [] ctrs (fuel + 1) t name s = (.ok v, s) := by
  simp [resolveBinding, getBinding_no_overrides, h, resolveInstanceW]

theorem resolveBinding_of_err (ops : TyOps Ty) (ctrs : List (Registry Ty)) (fuel : Nat)
    (t : Ty) (name : String) (s : St Ty) (e : GoErr Ty)
    (h : getBindingChain ctrs t name = .error e) :
    resolveBinding ops [] ctrs (fuel + 1) t name s = (.error e, s) := by
  simp [resolveBinding, getBinding_no_overrides, h]

end RegistryLemmas

section Claims

variable {Ty : Type} [DecidableEq Ty] [Inhabited Ty]

/-- C10: `With` on a resolver replaces the overrides instead of
accumulating them: the derived resolver's override list is exactly the
instances passed to that `With` call (overrides previously attached to
the parent are not carried over, as the third conjunct shows), and the
derived resolver shares the parent's container chain.  In this purely
functional embedding the parent resolver (and its chain) is never
mutated by construction, matching the source, which only reads `self`. -/
theorem with_replaces_overrides (r : Resolver Ty) (prev impls : List (Val Ty)) :
    (r.With impls).implementations = impls ∧ (r.With impls).containers = r.containers ∧
      ((r.With prev).With impls).implementations = impls :=
  ⟨rfl, rfl, rfl⟩

/-- C9: for every function and non-nil return-target list whose length
differs from the function's non-error output count, `Call` returns the
count-mismatch error with the state completely unchanged: no argument
is resolved, the function is never invoked (the log is untouched) and
no factory is materialised. -/
theorem call_count_mismatch_precedes_everything
    (ops : TyOps Ty) (impls : List (Val Ty)) (ctrs : List (Registry Ty)) (fuel : Nat)
    (f : GoFunc Ty) (rets : List (RetTarget Ty)) (st : St Ty)
    (hlen : f.outs.length -
        (if f.outs ≠ [] ∧ ops.isError (f.outs.getLastD default) = true then 1 else 0) ≠
      rets.length) :
    Call ops impls ctrs fuel (.fn f) { returns := some rets } st =
      (.error (.assignCount
        (f.outs.length -
          (if f.outs ≠ [] ∧ ops.isError (f.outs.getLastD default) = true then 1 else 0))
        rets.length), st) := by
  simp only [Call]
  rw [if_pos ⟨rfl, hlen⟩]
  rfl

/-- Witness for C9: a function with no outputs against a one-target
list is rejected with the count-mismatch error and an unchanged state. -/
theorem call_count_mismatch_precedes_everything_w :
    Call tuOps [] [] 0 (.fn c9fn) { returns := some [.bad] } ⟨[], []⟩ =
      (.error (.assignCount 0 1), ⟨[], []⟩) :=
  call_count_mismatch_precedes_everything tuOps [] [] 0 c9fn [.bad] ⟨[], []⟩ (by decide)

/-- C8: an instance never registered in any registry satisfies, through
`With`, a function parameter whose abstraction type the instance's
concrete type is assignable to — the override is consulted before any
registry lookup, so this holds for every container chain — while the
same `Call` without the override fails with the not-found error for
that parameter when no registry binds it. -/
theorem with_override_resolves_unregistered
    (ops : TyOps Ty) (ctrs : List (Registry Ty)) (fuel : Nat) (f : GoFunc Ty)
    (impl : Val Ty) (p : Ty) (st : St Ty)
    (hins : f.ins = [p]) (houts : f.outs = [])
    (hassign : ops.assignableTo impl.ty p = true)
    (hunbound : ∀ r ∈ ctrs, assocFind r.bindings p = none) :
    (Call ops [impl] ctrs (fuel + 1) (.fn f) {} st).1 = .ok () ∧
    Call ops [] ctrs (fuel + 1) (.fn f) {} st = (.error (.notFound p), st) := by
  constructor
  · simp only [Call, hins, houts]
    simp [argumentsW, resolveBinding, getBinding, hassign, DefaultBindName,
      resolveInstanceW, assignReturns]
  · simp only [Call, hins, houts]
    have h := resolveBinding_of_err ops ctrs fuel p DefaultBindName st (.notFound p)
      (chain_notFound ctrs p DefaultBindName hunbound)
    simp [argumentsW, h]

/-- Witness for C8: a Circle instance satisfies a Shape parameter via
`With` against an empty container chain; without the override the same
call is a Shape not-found error. -/
theorem with_override_resolves_unregistered_w :
    (Call tuOps [⟨TU.circle, .word 9, none⟩] [] 1 (.fn c8fn) {} ⟨[], []⟩).1 = .ok () ∧
    Call tuOps [] [] 1 (.fn c8fn) {} ⟨[], []⟩ =
      (.error (.notFound TU.shape), ⟨[], []⟩) :=
  with_override_resolves_unregistered tuOps [] 0 c8fn ⟨TU.circle, .word 9, none⟩ TU.shape
    ⟨[], []⟩ rfl rfl (by decide) (by simp)

/-- C1: after a successful singleton bind (default name) of a
dependency-free constructor, the constructor has been invoked exactly
once, eagerly, at bind time (the final log is the initial log extended
by exactly one entry for it; the hypotheses say the constructor's own
body performs no engine invocation), the constructed value is stored,
and every subsequent `Resolve` for the bound type under the default
name assigns that identical stored value and returns the state with an
untouched log — no further construction ever happens. -/
theorem singleton_constructs_once_resolves_identical
    (ops : TyOps Ty) (f : GoFunc Ty) (t : Ty) (v : Val Ty) (cnt : Registry Ty)
    (fuel : Nat) (st st₂ : St Ty)
    (hins : f.ins = []) (houts : f.outs = [t]) (hterr : ops.isError t = false)
    (hrun : f.run [] { st with log := st.log ++ [f.id] } = ([v], st₂))
    (hlog : st₂.log = st.log ++ [f.id])
    (hhook : v.hook = none) (hnn : v.data ≠ .nilV) :
    Singleton ops (.fn f) {} cnt fuel st =
      (.ok (), cnt.setB t DefaultBindName { inst := some v }, st₂) ∧
    st₂.log = st.log ++ [f.id] ∧
    ∀ (fuel' : Nat) (s : St Ty) (a : Nat) (cur : Val Ty),
      heapAt s a = some (.vcell cur) → cur.ty = t →
      Resolve ops [] [cnt.setB t DefaultBindName { inst := some v }] (fuel' + 1)
          ⟨cur.ty, .addr a, none⟩ {} s =
        (.ok (), writeHeap s a (.vcell v)) ∧
      (writeHeap s a (.vcell v)).log = s.log := by
  refine ⟨?_, hlog, ?_⟩
  · simp only [Singleton, bind, houts, hins, invoke, invokeW, argumentsW]
    simp [hterr, hrun, postCreate, hhook, storeSingleton, toInstance, hnn, DefaultBindName,
      List.range_succ]
  · intro fuel' s a cur hcell hty
    have hr : regFind (cnt.setB t DefaultBindName { inst := some v }) t DefaultBindName =
        some { inst := some v } := by simp [regFind_setB]
    have hres := resolveBinding_of_inst ops
      [cnt.setB t DefaultBindName { inst := some v }] fuel' t DefaultBindName s v
      (chain_single_of_regFind _ _ _ _ hr)
    refine ⟨?_, rfl⟩
    simp only [heapAt] at hcell
    simp [Resolve, heapAt, hcell, hty, hres]

/-- Witness for C1: binding the Shape constructor stores the 100500
Shape under the default name with exactly one logged invocation; two
subsequent `Resolve` calls (on a zeroed receiver and on the already
resolved one) both assign that identical instance with no change to
the invocation log. -/
theorem singleton_constructs_once_resolves_identical_w :
    Singleton tuOps (.fn c1ctor) {} ⟨[]⟩ 0 ⟨[], []⟩ =
      (.ok (), Registry.setB ⟨[]⟩ TU.shape DefaultBindName
        { inst := some ⟨TU.shape, .word 100500, none⟩ }, ⟨[], [1]⟩) ∧
    Resolve tuOps [] [Registry.setB ⟨[]⟩ TU.shape DefaultBindName
        { inst := some ⟨TU.shape, .word 100500, none⟩ }] 1
        ⟨TU.shape, .addr 0, none⟩ {} ⟨[.vcell ⟨TU.shape, .nilV, none⟩], [1]⟩ =
      (.ok (), ⟨[.vcell ⟨TU.shape, .word 100500, none⟩], [1]⟩) ∧
    Resolve tuOps [] [Registry.setB ⟨[]⟩ TU.shape DefaultBindName
        { inst := some ⟨TU.shape, .word 100500, none⟩ }] 1
        ⟨TU.shape, .addr 0, none⟩ {} ⟨[.vcell ⟨TU.shape, .word 100500, none⟩], [1]⟩ =
      (.ok (), ⟨[.vcell ⟨TU.shape, .word 100500, none⟩], [1]⟩) := by
  have h := singleton_constructs_once_resolves_identical tuOps c1ctor TU.shape
    ⟨TU.shape, .word 100500, none⟩ ⟨[]⟩ 0 ⟨[], []⟩ ⟨[], [1]⟩ rfl rfl rfl rfl rfl rfl
    (by decide)
  exact ⟨h.1,
    (h.2.2 0 ⟨[.vcell ⟨TU.shape, .nilV, none⟩], [1]⟩ 0 ⟨TU.shape, .nilV, none⟩ rfl rfl).1,
    (h.2.2 0 ⟨[.vcell ⟨TU.shape, .word 100500, none⟩], [1]⟩ 0
      ⟨TU.shape, .word 100500, none⟩ rfl rfl).1⟩

theorem heapAt_lt {s : St Ty} {a : Nat} {o : HObj Ty} (h : heapAt s a = some o) :
    a < s.heap.length := by
  by_contra hle
  simp [heapAt, List.getElem?_eq_none (Nat.le_of_not_lt hle)] at h

theorem heapAt_write_ne {u : St Ty} {a a' : Nat} (o : HObj Ty) (h : a' ≠ a) :
    heapAt (writeHeap u a o) a' = heapAt u a' := by
  simp [heapAt, writeHeap, List.getElem?_set_ne (Ne.symm h)]

theorem heapAt_write_self {u : St Ty} {a : Nat} (o : HObj Ty) (h : a < u.heap.length) :
    heapAt (writeHeap u a o) a = some o := by
  simp [heapAt, writeHeap, List.getElem?_set_self h]

/-- Materialising a factory binding of an allocating, dependency-free
constructor: the constructor is invoked (logged) and the resolution
returns a pointer to the freshly allocated object. -/
theorem resolveBinding_factory_alloc
    (ops : TyOps Ty) (ctrs : List (Registry Ty)) (f : GoFunc Ty) (t : Ty) (payload : Nat)
    (hins : f.ins = [])
    (hrun : ∀ s : St Ty, f.run [] s =
      ([⟨t, .addr s.heap.length, none⟩], { s with heap := s.heap ++ [.word payload] }))
    (hbnd : getBindingChain ctrs t DefaultBindName = .ok { factory := some f })
    (fuel : Nat) (s : St Ty) :
    resolveBinding ops [] ctrs (fuel + 1) t DefaultBindName s =
      (.ok ⟨t, .addr s.heap.length, none⟩,
        ⟨s.heap ++ [.word payload], s.log ++ [f.id]⟩) := by
  simp only [resolveBinding, getBinding_no_overrides, hbnd]
  simp [resolveInstanceW, invokeW, argumentsW, hins, hrun]

/-- C2: a factory bind stores the constructor without invoking it (the
bind-time state is returned unchanged); every subsequent `Resolve`
invokes the stored constructor anew, assigning a pointer to a freshly
allocated object carrying the constructed payload (second conjunct, for
every pre-resolve state — hence two resolves always yield two distinct
allocations).  Third conjunct, the spec's scenario: after resolving
once, mutating the resolved object's payload in place, and resolving
again, the second resolved value is a different pointer whose object
still carries the original payload; the mutation survives only on the
first object. -/
theorem factory_construct_anew_mutation_unseen
    (ops : TyOps Ty) (f : GoFunc Ty) (t : Ty) (payload : Nat) (cnt : Registry Ty)
    (fuel : Nat) (st : St Ty)
    (hins : f.ins = []) (houts : f.outs = [t]) (hterr : ops.isError t = false)
    (hrun : ∀ s : St Ty, f.run [] s =
      ([⟨t, .addr s.heap.length, none⟩], { s with heap := s.heap ++ [.word payload] })) :
    Factory ops (.fn f) {} cnt fuel st =
      (.ok (), cnt.setB t DefaultBindName { factory := some f }, st) ∧
    (∀ (fuel' : Nat) (s : St Ty) (ra : Nat) (cur : Val Ty),
      heapAt s ra = some (.vcell cur) → cur.ty = t →
      Resolve ops [] [cnt.setB t DefaultBindName { factory := some f }] (fuel' + 1)
          ⟨cur.ty, .addr ra, none⟩ {} s =
        (.ok (), writeHeap ⟨s.heap ++ [.word payload], s.log ++ [f.id]⟩ ra
          (.vcell ⟨t, .addr s.heap.length, none⟩))) ∧
    ∀ (fuel₂ m : Nat) (s : St Ty) (ra : Nat) (cur : Val Ty),
      heapAt s ra = some (.vcell cur) → cur.ty = t →
      -- state after the first Resolve into the receiver at `ra`:
      (fun (s₁ : St Ty) =>
        -- in-place mutation of the first resolved object:
        (fun (s₁' : St Ty) =>
          -- final state of the second Resolve into the same receiver:
          (fun (fin : St Ty) =>
            Resolve ops [] [cnt.setB t DefaultBindName { factory := some f }] (fuel₂ + 1)
                ⟨t, .addr ra, none⟩ {} s₁' = (.ok (), fin) ∧
            heapAt fin (s.heap.length + 1) = some (.word payload) ∧
            heapAt fin s.heap.length = some (.word m) ∧
            (⟨t, .addr (s.heap.length + 1), none⟩ : Val Ty) ≠ ⟨t, .addr s.heap.length, none⟩)
          (writeHeap ⟨s₁'.heap ++ [.word payload], s₁'.log ++ [f.id]⟩ ra
            (.vcell ⟨t, .addr (s.heap.length + 1), none⟩)))
        (writeHeap s₁ s.heap.length (.word m)))
      (writeHeap ⟨s.heap ++ [.word payload], s.log ++ [f.id]⟩ ra
        (.vcell ⟨t, .addr s.heap.length, none⟩)) := by
  have hbnd : getBindingChain [cnt.setB t DefaultBindName { factory := some f }] t
      DefaultBindName = .ok { factory := some f } :=
    chain_single_of_regFind _ _ _ _ (by simp [regFind_setB])
  have hresolve : ∀ (fuel' : Nat) (s : St Ty) (ra : Nat) (cur : Val Ty),
      heapAt s ra = some (.vcell cur) → cur.ty = t →
      Resolve ops [] [cnt.setB t DefaultBindName { factory := some f }] (fuel' + 1)
          ⟨cur.ty, .addr ra, none⟩ {} s =
        (.ok (), writeHeap ⟨s.heap ++ [.word payload], s.log ++ [f.id]⟩ ra
          (.vcell ⟨t, .addr s.heap.length, none⟩)) := by
    intro fuel' s ra cur hcell hty
    have hres := resolveBinding_factory_alloc ops
      [cnt.setB t DefaultBindName { factory := some f }] f t payload hins hrun hbnd fuel' s
    simp only [heapAt] at hcell
    simp [Resolve, heapAt, hcell, hty, hres]
  refine ⟨?_, hresolve, ?_⟩
  · simp only [Factory, bind, houts, hins]
    simp [hterr, storeFactory, DefaultBindName, List.range_succ]
  · intro fuel₂ m s ra cur hcell hty
    have hra : ra < s.heap.length := heapAt_lt hcell
    have hra' : ra ≠ s.heap.length := Nat.ne_of_lt hra
    -- the receiver cell after resolve-then-mutate still holds the first value:
    have hcell₁ :
        heapAt (writeHeap (writeHeap ⟨s.heap ++ [.word payload], s.log ++ [f.id]⟩ ra
            (.vcell ⟨t, .addr s.heap.length, none⟩)) s.heap.length (.word m)) ra =
          some (.vcell ⟨t, .addr s.heap.length, none⟩) := by
      rw [heapAt_write_ne _ hra', heapAt_write_self]
      simpa [writeHeap] using Nat.lt_succ_of_lt hra
    have h2 := hresolve fuel₂
      (writeHeap (writeHeap ⟨s.heap ++ [.word payload], s.log ++ [f.id]⟩ ra
        (.vcell ⟨t, .addr s.heap.length, none⟩)) s.heap.length (.word m)) ra
      ⟨t, .addr s.heap.length, none⟩ hcell₁ rfl
    have hlen : (writeHeap (writeHeap ⟨s.heap ++ [.word payload], s.log ++ [f.id]⟩ ra
        (.vcell ⟨t, .addr s.heap.length, none⟩)) s.heap.length (.word m)).heap.length =
        s.heap.length + 1 := by
      simp [writeHeap]
    refine ⟨by rw [h2, hlen], ?_, ?_, by simp⟩
    · rw [heapAt_write_ne _ (by omega)]
      simp only [heapAt]
      rw [← hlen, List.getElem?_concat_length]
    · rw [heapAt_write_ne _ (Ne.symm hra')]
      simp only [heapAt]
      rw [List.getElem?_append_left (by rw [hlen]; omega)]
      have : s.heap.length <
          ((writeHeap ⟨s.heap ++ [.word payload], s.log ++ [f.id]⟩ ra
            (.vcell ⟨t, .addr s.heap.length, none⟩)).heap).length := by
        simp [writeHeap]
      rw [writeHeap, List.getElem?_set_self this]

/-- Witness for C2: binding the allocating Shape constructor as a
factory stores it uninvoked; resolving yields a pointer to a fresh
object with area 100500; after mutating that object's area to 13 in
place, a second resolve yields a pointer to a different fresh object
whose area is again 100500, while the mutated 13 stays only on the
first object. -/
theorem factory_construct_anew_mutation_unseen_w :
    Factory tuOps (.fn c2ctor) {} ⟨[]⟩ 0 ⟨[.vcell ⟨TU.shape, .nilV, none⟩], []⟩ =
      (.ok (), Registry.setB ⟨[]⟩ TU.shape DefaultBindName { factory := some c2ctor },
        ⟨[.vcell ⟨TU.shape, .nilV, none⟩], []⟩) ∧
    Resolve tuOps [] [Registry.setB ⟨[]⟩ TU.shape DefaultBindName { factory := some c2ctor }]
        1 ⟨TU.shape, .addr 0, none⟩ {} ⟨[.vcell ⟨TU.shape, .nilV, none⟩], []⟩ =
      (.ok (), ⟨[.vcell ⟨TU.shape, .addr 1, none⟩, .word 100500], [2]⟩) ∧
    Resolve tuOps [] [Registry.setB ⟨[]⟩ TU.shape DefaultBindName { factory := some c2ctor }]
        1 ⟨TU.shape, .addr 0, none⟩ {} ⟨[.vcell ⟨TU.shape, .addr 1, none⟩, .word 13], [2]⟩ =
      (.ok (), ⟨[.vcell ⟨TU.shape, .addr 2, none⟩, .word 13, .word 100500], [2, 2]⟩) ∧
    heapAt ⟨[.vcell ⟨TU.shape, .addr 2, none⟩, .word 13, .word 100500], [2, 2]⟩ 2 =
      some (.word 100500) ∧
    heapAt ⟨[.vcell ⟨TU.shape, .addr 2, none⟩, .word 13, .word 100500], [2, 2]⟩ 1 =
      some (.word 13) := by
  have h := factory_construct_anew_mutation_unseen tuOps c2ctor TU.shape 100500 ⟨[]⟩ 0
    ⟨[.vcell ⟨TU.shape, .nilV, none⟩], []⟩ rfl rfl rfl (fun _ => rfl)
  have h3 := h.2.2 0 13 ⟨[.vcell ⟨TU.shape, .nilV, none⟩], []⟩ 0 ⟨TU.shape, .nilV, none⟩
    rfl rfl
  exact ⟨h.1,
    h.2.1 0 ⟨[.vcell ⟨TU.shape, .nilV, none⟩], []⟩ 0 ⟨TU.shape, .nilV, none⟩ rfl rfl,
    h3.1, h3.2.1, h3.2.2.1⟩

/-- C5: binding a constructor that returns two useful values plus a
trailing error as a singleton with three supplied names fails with the
name-count error before the constructor is ever invoked: registry and
state are returned unchanged, nothing is stored.  The same bind with
one or two names is accepted. -/
theorem multi_value_name_count_three_rejected
    (ops : TyOps Ty) (f : GoFunc Ty) (a b e : Ty) (va vb ve : Val Ty)
    (cnt : Registry Ty) (fuel : Nat) (st st₂ : St Ty) (n₁ n₂ n₃ : String)
    (hins : f.ins = []) (houts : f.outs = [a, b, e])
    (he : ops.isError e = true)
    (hrun : f.run [] { st with log := st.log ++ [f.id] } = ([va, vb, ve], st₂))
    (hety : ve.data = .nilV)
    (hhooka : va.hook = none) (hhookb : vb.hook = none) :
    Singleton ops (.fn f) { names := some [n₁, n₂, n₃] } cnt fuel st =
      (.error .nameCount, cnt, st) ∧
    (Singleton ops (.fn f) { names := some [n₁] } cnt fuel st).1 = .ok () ∧
    (Singleton ops (.fn f) { names := some [n₁, n₂] } cnt fuel st).1 = .ok () := by
  refine ⟨?_, ?_, ?_⟩
  · simp only [Singleton, bind, houts, hins]
    simp [he]
  · simp only [Singleton, bind, houts, hins, invoke, invokeW, argumentsW]
    simp [he, hrun, hety, postCreate, hhooka, hhookb]
  · simp only [Singleton, bind, houts, hins, invoke, invokeW, argumentsW]
    simp [he, hrun, hety, postCreate, hhooka, hhookb]

/-- Witness for C5: the (Shape, Database, error) constructor with three
names is rejected with the name-count error, registry and state
unchanged; with one or two names the bind succeeds. -/
theorem multi_value_name_count_three_rejected_w :
    Singleton tuOps (.fn c5ctor) { names := some ["a", "b", "c"] } ⟨[]⟩ 0 ⟨[], []⟩ =
      (.error .nameCount, ⟨[]⟩, ⟨[], []⟩) ∧
    (Singleton tuOps (.fn c5ctor) { names := some ["a"] } ⟨[]⟩ 0 ⟨[], []⟩).1 = .ok () ∧
    (Singleton tuOps (.fn c5ctor) { names := some ["a", "b"] } ⟨[]⟩ 0 ⟨[], []⟩).1 = .ok () :=
  multi_value_name_count_three_rejected tuOps c5ctor TU.shape TU.database TU.errT
    ⟨TU.shape, .word 777, none⟩ ⟨TU.database, .word 1, none⟩ ⟨TU.errT, .nilV, none⟩
    ⟨[]⟩ 0 ⟨[], []⟩ ⟨[], [5]⟩ "a" "b" "c" rfl rfl rfl rfl rfl rfl rfl

theorem regFind_foldl_setB (t : Ty) (b : Binding Ty) (ns : List String) (c : Registry Ty)
    (n : String) :
    regFind (ns.foldl (fun c' n' => c'.setB t n' b) c) t n =
      if n ∈ ns then some b else regFind c t n := by
  induction ns generalizing c with
  | nil => simp
  | cons n₀ rest ih =>
    simp only [List.foldl_cons]
    rw [ih]
    by_cases hmem : n ∈ rest
    · simp [hmem]
    · by_cases hn : n = n₀ <;> simp [hmem, hn, regFind_setB]

/-- C6: a singleton bind whose constructor yields exactly one useful
value, supplied with several names none of which is the default, stores
the value under every supplied name (alias semantics): `Resolve` under
each supplied name assigns that value, while `Resolve` under the
default name fails with the not-found error (the bound type being
otherwise fresh in the registry). -/
theorem single_value_alias_names
    (ops : TyOps Ty) (f : GoFunc Ty) (t : Ty) (v : Val Ty) (cnt : Registry Ty)
    (fuel : Nat) (st st₂ : St Ty) (ns : List String)
    (hins : f.ins = []) (houts : f.outs = [t]) (hterr : ops.isError t = false)
    (hrun : f.run [] { st with log := st.log ++ [f.id] } = ([v], st₂))
    (hhook : v.hook = none) (hnn : v.data ≠ .nilV)
    (hsev : 2 ≤ ns.length) (hdef : DefaultBindName ∉ ns)
    (hfresh : assocFind cnt.bindings t = none) :
    Singleton ops (.fn f) { names := some ns } cnt fuel st =
      (.ok (), ns.foldl (fun c n => c.setB t n { inst := some v }) cnt, st₂) ∧
    (∀ n ∈ ns, ∀ (fuel' : Nat) (s : St Ty) (a : Nat) (cur : Val Ty),
      heapAt s a = some (.vcell cur) → cur.ty = t →
      Resolve ops [] [ns.foldl (fun c n' => c.setB t n' { inst := some v }) cnt] (fuel' + 1)
          ⟨cur.ty, .addr a, none⟩ { name := n } s =
        (.ok (), writeHeap s a (.vcell v))) ∧
    ∀ (fuel' : Nat) (s : St Ty) (a : Nat) (cur : Val Ty),
      heapAt s a = some (.vcell cur) → cur.ty = t →
      Resolve ops [] [ns.foldl (fun c n' => c.setB t n' { inst := some v }) cnt] (fuel' + 1)
          ⟨cur.ty, .addr a, none⟩ {} s = (.error (.notFound t), s) := by
  have hne : ns ≠ [] := by
    intro h
    rw [h] at hsev
    simp at hsev
  refine ⟨?_, ?_, ?_⟩
  · simp only [Singleton, bind, houts, hins, invoke, invokeW, argumentsW]
    simp [hterr, hrun, postCreate, hhook, storeSingleton, toInstance, hnn, hne,
      List.range_succ]
  · intro n hn fuel' s a cur hcell hty
    have hr : regFind (ns.foldl (fun c n' => c.setB t n' { inst := some v }) cnt) t n =
        some { inst := some v } := by
      rw [regFind_foldl_setB]
      simp [hn]
    have hres := resolveBinding_of_inst ops
      [ns.foldl (fun c n' => c.setB t n' { inst := some v }) cnt] fuel' t n s v
      (chain_single_of_regFind _ _ _ _ hr)
    simp only [heapAt] at hcell
    simp [Resolve, heapAt, hcell, hty, hres]
  · intro fuel' s a cur hcell hty
    have hr : regFind (ns.foldl (fun c n' => c.setB t n' { inst := some v }) cnt) t
        DefaultBindName = none := by
      rw [regFind_foldl_setB]
      simp [hdef, regFind, hfresh, assocFind]
    have hres := resolveBinding_of_err ops
      [ns.foldl (fun c n' => c.setB t n' { inst := some v }) cnt] fuel' t DefaultBindName s
      (.notFound t) (chain_single_none _ _ _ hr)
    simp only [heapAt] at hcell
    simp [Resolve, heapAt, hcell, hty, hres]

/-- Witness for C6: the one-value Shape constructor bound with names
"a" and "b" is stored under both; `Resolve` under "a" and under "b"
assigns the value, `Resolve` under the default name fails with the
Shape not-found error. -/
theorem single_value_alias_names_w :
    Singleton tuOps (.fn c1ctor) { names := some ["a", "b"] } ⟨[]⟩ 0 ⟨[], []⟩ =
      (.ok (), Registry.setB (Registry.setB ⟨[]⟩ TU.shape "a"
        { inst := some ⟨TU.shape, .word 100500, none⟩ }) TU.shape "b"
        { inst := some ⟨TU.shape, .word 100500, none⟩ }, ⟨[], [1]⟩) ∧
    Resolve tuOps [] [Registry.setB (Registry.setB ⟨[]⟩ TU.shape "a"
        { inst := some ⟨TU.shape, .word 100500, none⟩ }) TU.shape "b"
        { inst := some ⟨TU.shape, .word 100500, none⟩ }] 1
        ⟨TU.shape, .addr 0, none⟩ { name := "a" } ⟨[.vcell ⟨TU.shape, .nilV, none⟩], [1]⟩ =
      (.ok (), ⟨[.vcell ⟨TU.shape, .word 100500, none⟩], [1]⟩) ∧
    Resolve tuOps [] [Registry.setB (Registry.setB ⟨[]⟩ TU.shape "a"
        { inst := some ⟨TU.shape, .word 100500, none⟩ }) TU.shape "b"
        { inst := some ⟨TU.shape, .word 100500, none⟩ }] 1
        ⟨TU.shape, .addr 0, none⟩ { name := "b" } ⟨[.vcell ⟨TU.shape, .nilV, none⟩], [1]⟩ =
      (.ok (), ⟨[.vcell ⟨TU.shape, .word 100500, none⟩], [1]⟩) ∧
    Resolve tuOps [] [Registry.setB (Registry.setB ⟨[]⟩ TU.shape "a"
        { inst := some ⟨TU.shape, .word 100500, none⟩ }) TU.shape "b"
        { inst := some ⟨TU.shape, .word 100500, none⟩ }] 1
        ⟨TU.shape, .addr 0, none⟩ {} ⟨[.vcell ⟨TU.shape, .nilV, none⟩], [1]⟩ =
      (.error (.notFound TU.shape), ⟨[.vcell ⟨TU.shape, .nilV, none⟩], [1]⟩) := by
  have h := single_value_alias_names tuOps c1ctor TU.shape ⟨TU.shape, .word 100500, none⟩
    ⟨[]⟩ 0 ⟨[], []⟩ ⟨[], [1]⟩ ["a", "b"] rfl rfl rfl rfl rfl (by decide) (by decide)
    (by decide) rfl
  exact ⟨h.1,
    h.2.1 "a" (by simp) 0 ⟨[.vcell ⟨TU.shape, .nilV, none⟩], [1]⟩ 0
      ⟨TU.shape, .nilV, none⟩ rfl rfl,
    h.2.1 "b" (by simp) 0 ⟨[.vcell ⟨TU.shape, .nilV, none⟩], [1]⟩ 0
      ⟨TU.shape, .nilV, none⟩ rfl rfl,
    h.2.2 0 ⟨[.vcell ⟨TU.shape, .nilV, none⟩], [1]⟩ 0 ⟨TU.shape, .nilV, none⟩ rfl rfl⟩

/-- C7 counterexample: `Implementation` with two supplied names stores
the instance only under the first — the second conjunct shows the
instance is bound under "a", yet resolving its concrete type under "b"
fails with not-found, refuting storage "under the given name(s)" as
soon as more than one name is supplied. -/
theorem implementation_second_name_missing_cex :
    resolveBinding tuOps []
        [Implementation ⟨TU.mysql, .word 3, none⟩ { names := some ["a", "b"] } ⟨[]⟩] 1
        TU.mysql "b" ⟨[], []⟩ = (.error (.notFound TU.mysql), ⟨[], []⟩) ∧
    resolveBinding tuOps []
        [Implementation ⟨TU.mysql, .word 3, none⟩ { names := some ["a", "b"] } ⟨[]⟩] 1
        TU.mysql "a" ⟨[], []⟩ = (.ok ⟨TU.mysql, .word 3, none⟩, ⟨[], []⟩) :=
  ⟨rfl, rfl⟩

/-- C7 (amended): `Implementation` stores the instance keyed by its own
concrete runtime type under the *first* supplied name only (the default
name when none are supplied); the instance is retrievable by its
concrete type under that name, and a lookup by any other type — in
particular an abstract type the instance's concrete type is assignable
to — fails with the not-found error unless that type is separately
bound in the registry. -/
theorem implementation_concrete_type_first_name
    (ops : TyOps Ty) (impl : Val Ty) (names : Option (List String)) (cnt : Registry Ty)
    (n₀ : String)
    (hn₀ : n₀ = (match names.getD [] with | [] => [DefaultBindName] | l => l).headD "")
    (hnn : impl.data ≠ .nilV) :
    (∀ (fuel : Nat) (s : St Ty),
      resolveBinding ops [] [Implementation impl { names := names } cnt] (fuel + 1)
          impl.ty n₀ s = (.ok impl, s)) ∧
    ∀ (u : Ty), u ≠ impl.ty → assocFind cnt.bindings u = none →
      ∀ (name : String) (fuel : Nat) (s : St Ty),
        resolveBinding ops [] [Implementation impl { names := names } cnt] (fuel + 1)
            u name s = (.error (.notFound u), s) := by
  constructor
  · intro fuel s
    have hr : regFind (Implementation impl { names := names } cnt) impl.ty n₀ =
        some { inst := some impl } := by
      simp only [Implementation, hn₀]
      rw [regFind_setB]
      simp [toInstance, hnn]
    exact resolveBinding_of_inst ops _ fuel impl.ty n₀ s impl
      (chain_single_of_regFind _ _ _ _ hr)
  · intro u hu hub name fuel s
    have hr : regFind (Implementation impl { names := names } cnt) u name = none := by
      simp only [Implementation, regFind, Registry.setB]
      rw [assocFind_set_ne _ _ _ _ hu]
      simp [hub, assocFind]
    exact resolveBinding_of_err ops _ fuel u name s (.notFound u)
      (chain_single_none _ _ _ hr)

/-- Witness for C7 (amended): a MySQL instance bound with names
["a", "b"] resolves by its concrete type under the first name "a";
looked up by the Database abstraction — which MySQL is assignable to —
it is not found. -/
theorem implementation_concrete_type_first_name_w :
    resolveBinding tuOps []
        [Implementation ⟨TU.mysql, .word 3, none⟩ { names := some ["a", "b"] } ⟨[]⟩] 1
        TU.mysql "a" ⟨[], []⟩ = (.ok ⟨TU.mysql, .word 3, none⟩, ⟨[], []⟩) ∧
    resolveBinding tuOps []
        [Implementation ⟨TU.mysql, .word 3, none⟩ { names := some ["a", "b"] } ⟨[]⟩] 1
        TU.database DefaultBindName ⟨[], []⟩ = (.error (.notFound TU.database), ⟨[], []⟩) ∧
    tuOps.assignableTo TU.mysql TU.database = true := by
  have h := implementation_concrete_type_first_name tuOps ⟨TU.mysql, .word 3, none⟩
    (some ["a", "b"]) ⟨[]⟩ "a" rfl (by decide)
  exact ⟨h.1 0 ⟨[], []⟩, h.2 TU.database (by decide) rfl DefaultBindName 0 ⟨[], []⟩,
    by decide⟩

theorem assignReturns_ok_iff (outs : List Ty) (out : List (Val Ty)) :
    ∀ (rets : List (RetTarget Ty)) (i : Nat) (st : St Ty),
      (assignReturns outs out rets i st).1 = .ok () ↔ exactTargets outs rets i = true := by
  intro rets
  induction rets with
  | nil => intro i st; simp [assignReturns, exactTargets]
  | cons r rest ih =>
    intro i st
    cases r with
    | bad => simp [assignReturns, exactTargets]
    | tgt u c a =>
      simp only [exactTargets, Bool.and_eq_true, decide_eq_true_eq]
      by_cases hc : c = true ∧ outs.getD i default = u
      · simp only [assignReturns]
        rw [if_pos hc, ih]
        exact ⟨fun hr => ⟨hc, hr⟩, fun h => h.2⟩
      · simp only [assignReturns]
        rw [if_neg hc]
        exact iff_of_false (by simp) fun h => hc h.1

theorem assignReturns_exact_state (outs : List Ty) (out : List (Val Ty)) :
    ∀ (rets : List (RetTarget Ty)) (i : Nat) (st : St Ty),
      exactTargets outs rets i = true →
      assignReturns outs out rets i st =
        (.ok (), applyWrites st (retWrites outs out rets i)) := by
  intro rets
  induction rets with
  | nil => intro i st _; simp [assignReturns, retWrites, applyWrites]
  | cons r rest ih =>
    intro i st h
    cases r with
    | bad => simp [exactTargets] at h
    | tgt u c a =>
      simp only [exactTargets, Bool.and_eq_true, decide_eq_true_eq] at h
      obtain ⟨⟨hc, heq⟩, hrest⟩ := h
      simp only [assignReturns, retWrites]
      rw [if_pos ⟨hc, heq⟩, if_pos ⟨hc, heq⟩, ih _ _ hrest]
      simp [applyWrites]

/-- C4 counterexample: the output type Rectangle *is* assignable to the
target's element type Shape, yet `Call` fails with the
return-type-mismatch error — assignability does not rescue a return
target whose type is not identical to the output type, refuting the
claim's "or is assignable from" success case. -/
theorem call_return_assignable_mismatch_cex :
    tuOps.assignableTo TU.rectangle TU.shape = true ∧
    Call tuOps [] [] 1 (.fn c4fn) { returns := some [.tgt TU.shape true 0] }
        ⟨[.vcell ⟨TU.shape, .nilV, none⟩], []⟩ =
      (.error (.assignType TU.rectangle TU.shape),
        ⟨[.vcell ⟨TU.shape, .nilV, none⟩], [4]⟩) :=
  ⟨rfl, rfl⟩

/-- C4 (amended): for every `Call` with a non-empty return-target list
whose length equals the function's non-error output count, `Call`
succeeds if and only if every target is a settable pointer whose
element type is *exactly equal* (reflect.Type identity) to the
corresponding output type, in which case each output is copied into its
target in order; a target whose element type differs in any way — even
one the output type is assignable to — makes `Call` fail with the
return-type-mismatch error. -/
theorem call_copies_returns_iff_exact_type
    (ops : TyOps Ty) (impls : List (Val Ty)) (ctrs : List (Registry Ty)) (fuel : Nat)
    (f : GoFunc Ty) (rets : List (RetTarget Ty)) (st st₂ : St Ty) (out : List (Val Ty))
    (hins : f.ins = [])
    (herr : ops.isError (f.outs.getLastD default) = false)
    (hlen : rets.length = f.outs.length)
    (hrun : f.run [] { st with log := st.log ++ [f.id] } = (out, st₂)) :
    ((Call ops impls ctrs fuel (.fn f) { returns := some rets } st).1 = .ok () ↔
      exactTargets f.outs rets 0 = true) ∧
    (exactTargets f.outs rets 0 = true →
      Call ops impls ctrs fuel (.fn f) { returns := some rets } st =
        (.ok (), applyWrites st₂ (retWrites f.outs out rets 0))) := by
  have hzero : (if f.outs ≠ [] ∧ ops.isError (f.outs.getLastD default) = true then 1 else 0)
      = 0 := by
    rw [if_neg]
    rintro ⟨-, h2⟩
    rw [herr] at h2
    exact Bool.false_ne_true h2
  have hcall : Call ops impls ctrs fuel (.fn f) { returns := some rets } st =
      assignReturns f.outs out rets 0 st₂ := by
    simp only [Call, hins, hzero]
    rw [if_neg (by simp [hlen])]
    simp [argumentsW, hrun]
  exact ⟨by rw [hcall]; exact assignReturns_ok_iff _ _ _ _ _,
    fun hx => by rw [hcall]; exact assignReturns_exact_state _ _ _ _ _ hx⟩

/-- Witness for C4 (amended): with a settable target of exactly the
output type Rectangle, `Call` succeeds and the output value is copied
into the target cell. -/
theorem call_copies_returns_iff_exact_type_w :
    exactTargets c4fn.outs [.tgt TU.rectangle true 0] 0 = true ∧
    Call tuOps [] [] 1 (.fn c4fn) { returns := some [.tgt TU.rectangle true 0] }
        ⟨[.vcell ⟨TU.shape, .nilV, none⟩], []⟩ =
      (.ok (), ⟨[.vcell ⟨TU.rectangle, .word 13, none⟩], [4]⟩) := by
  have h := call_copies_returns_iff_exact_type tuOps [] [] 1 c4fn
    [.tgt TU.rectangle true 0] ⟨[.vcell ⟨TU.shape, .nilV, none⟩], []⟩
    ⟨[.vcell ⟨TU.shape, .nilV, none⟩], [4]⟩ [⟨TU.rectangle, .word 13, none⟩]
    rfl rfl rfl rfl
  exact ⟨by decide, h.2 (by decide)⟩

theorem fillFieldsSpec_untagged_all
    (resolve : Ty → String → St Ty → Except (GoErr Ty) (Val Ty) × St Ty)
    (fillRec : Val Ty → St Ty → Except (GoErr Ty) Unit × St Ty) :
    ∀ (fs : List (Field Ty)) (st : St Ty), (∀ g ∈ fs, g.tag = none) →
      fillFieldsSpec resolve fillRec fs st = (.ok (), fs, st) := by
  intro fs
  induction fs with
  | nil => intro st _; rfl
  | cons g gs ih =>
    intro st h
    have hg : g.tag = none := h g (by simp)
    simp only [fillFieldsSpec, hg]
    rw [ih st fun g' hg' => h g' (by simp [hg'])]

theorem fillFieldsSpec_untagged_front
    (resolve : Ty → String → St Ty → Except (GoErr Ty) (Val Ty) × St Ty)
    (fillRec : Val Ty → St Ty → Except (GoErr Ty) Unit × St Ty)
    (pre : List (Field Ty)) (hpre : ∀ g ∈ pre, g.tag = none) :
    ∀ (rest : List (Field Ty)) (st : St Ty),
      fillFieldsSpec resolve fillRec (pre ++ rest) st =
        ((fillFieldsSpec resolve fillRec rest st).1,
          pre ++ (fillFieldsSpec resolve fillRec rest st).2.1,
          (fillFieldsSpec resolve fillRec rest st).2.2) := by
  induction pre with
  | nil => intro rest st; rfl
  | cons g gs ih =>
    intro rest st
    have hg : g.tag = none := hpre g (by simp)
    simp only [List.cons_append, fillFieldsSpec, hg, List.append_eq]
    rw [ih (fun g' hg' => hpre g' (by simp [hg'])) rest st]

/-- C3 (the `omitempty`-aware struct fill is modelled from the spec, see
`fillFieldsSpec`): filling a struct whose one tagged field is annotated
`type,omitempty` and whose field type is unbound in every registry
succeeds and leaves every field — in particular that one — at its
current (zero) value; the identical struct with the annotation `type`
alone makes the fill fail with the not-found error for the field
type. -/
theorem fill_omitempty_unbound_succeeds
    (ops : TyOps Ty) (ctrs : List (Registry Ty)) (fuel : Nat)
    (pre post : List (Field Ty)) (fld : Field Ty) (a : Nat) (rty : Ty) (st st' : St Ty)
    (hpre : ∀ g ∈ pre, g.tag = none) (hpost : ∀ g ∈ post, g.tag = none)
    (hunbound : ∀ r ∈ ctrs, assocFind r.bindings fld.ftype = none)
    (hcell : heapAt st a = some (.strct (pre ++ fld :: post)))
    (hcell' : heapAt st' a = some (.strct (pre ++ { fld with tag := some "type" } :: post)))
    (htag : fld.tag = some "type,omitempty") :
    FillSpec ops [] ctrs (fuel + 2) ⟨rty, .addr a, none⟩ st =
      (.ok (), writeHeap st a (.strct (pre ++ fld :: post))) ∧
    FillSpec ops [] ctrs (fuel + 2) ⟨rty, .addr a, none⟩ st' =
      (.error (.notFound fld.ftype),
        writeHeap st' a (.strct (pre ++ { fld with tag := some "type" } :: post))) := by
  have hres : ∀ s : St Ty,
      resolveBinding ops [] ctrs (fuel + 1) fld.ftype DefaultBindName s =
        (.error (.notFound fld.ftype), s) :=
    fun s => resolveBinding_of_err ops ctrs fuel fld.ftype DefaultBindName s _
      (chain_notFound ctrs fld.ftype DefaultBindName hunbound)
  have hpt : parseTag "type,omitempty" = some (TagAction.lookup false true) := rfl
  have hpt' : parseTag "type" = some (TagAction.lookup false false) := rfl
  constructor
  · show FillSpec ops [] ctrs ((fuel + 1) + 1) ⟨rty, .addr a, none⟩ st = _
    simp only [FillSpec, hcell]
    rw [fillFieldsSpec_untagged_front _ _ pre hpre]
    simp only [fillFieldsSpec, htag, hpt]
    rw [if_neg Bool.false_ne_true]
    simp only [hres]
    simp only [if_true]
    rw [fillFieldsSpec_untagged_all _ _ post st hpost]
  · show FillSpec ops [] ctrs ((fuel + 1) + 1) ⟨rty, .addr a, none⟩ st' = _
    simp only [FillSpec, hcell']
    rw [fillFieldsSpec_untagged_front _ _ pre hpre]
    simp only [fillFieldsSpec, hpt']
    rw [if_neg Bool.false_ne_true]
    simp only [hres]
    rw [if_neg Bool.false_ne_true]

/-- Witness for C3: a one-field struct tagged `type,omitempty` with
Shape unbound in the (single, empty) registry fills successfully with
the field left at its zero value; the identical struct tagged `type`
fails with the Shape not-found error. -/
theorem fill_omitempty_unbound_succeeds_w :
    FillSpec tuOps [] [⟨[]⟩] 2 ⟨TU.shape, .addr 0, none⟩
        ⟨[.strct [⟨"S", TU.shape, some "type,omitempty", ⟨TU.shape, .nilV, none⟩⟩]], []⟩ =
      (.ok (),
        ⟨[.strct [⟨"S", TU.shape, some "type,omitempty", ⟨TU.shape, .nilV, none⟩⟩]], []⟩) ∧
    FillSpec tuOps [] [⟨[]⟩] 2 ⟨TU.shape, .addr 0, none⟩
        ⟨[.strct [⟨"S", TU.shape, some "type", ⟨TU.shape, .nilV, none⟩⟩]], []⟩ =
      (.error (.notFound TU.shape),
        ⟨[.strct [⟨"S", TU.shape, some "type", ⟨TU.shape, .nilV, none⟩⟩]], []⟩) := by
  have h := fill_omitempty_unbound_succeeds tuOps [⟨[]⟩] 0 [] []
    ⟨"S", TU.shape, some "type,omitempty", ⟨TU.shape, .nilV, none⟩⟩ 0 TU.shape
    ⟨[.strct [⟨"S", TU.shape, some "type,omitempty", ⟨TU.shape, .nilV, none⟩⟩]], []⟩
    ⟨[.strct [⟨"S", TU.shape, some "type", ⟨TU.shape, .nilV, none⟩⟩]], []⟩
    (by simp) (by simp) (by intro r hr; rw [List.mem_singleton.mp hr]; rfl) rfl rfl rfl
  exact ⟨h.1, h.2⟩

end Claims

end DI
